import Mathlib

/-!
Verification of the chat-completion adapter in
`anthropic_chat_generator.py` (class `AnthropicChatGenerator`).

The adapter translates a generic ordered conversation of role-tagged
messages into the vendor request shape, sends one request, extracts text
from the response content blocks, optionally coerces it to JSON, and wraps
the result. Everything below is a shallow embedding of that file:
pure functions become Lean functions, the `for` loop over the conversation
becomes a left fold over an explicit (translated-messages, system-text)
state, Python exceptions become `Except`, and the external `json.loads`
validity test becomes an explicit boolean oracle parameter.
-/

namespace AnthropicChatGeneratorModel

/-! ## Data model -/

/-- Role tag of a Haystack `ChatMessage`; `other` covers any unrecognized
role value (the source tests roles with `msg.is_from r`). -/
inductive Role where
  | user
  | assistant
  | system
  | other (tag : String)
deriving DecidableEq

/-- Embedding of `haystack.dataclasses.ChatMessage` as used by this
repository: a role, the message text, and metadata. `ChatMessage` is a
Python `@dataclass`, so Python `==` on it is field-wise value equality,
which `DecidableEq` mirrors. The text is modelled as a string (the
pipeline only builds single-text-part messages). -/
structure ChatMessage where
  role : Role
  text : String
  meta : List (String × String)
deriving DecidableEq

/-- One entry of the `anthropic_messages` list built by `run`:
a dict `\x7b"role": ..., "content": ...\x7d`. -/
structure AnthropicMessage where
  role : String
  content : String
deriving DecidableEq

/-- Immutable adapter configuration stored by `__init__`
(`self.client`s key, `self.model`, `self.json_mode`). -/
structure Config where
  api_key : String
  model : String
  json_mode : Bool
deriving DecidableEq

/-- The `api_params` dict assembled by `run` before the remote call:
model, `max_tokens`, translated messages and the optional `"system"` key. -/
structure ApiParams where
  model : String
  maxTokens : Nat
  messages : List AnthropicMessage
  system : Option String
deriving DecidableEq

/-- One response content block, modelled by the observations the
extraction loop makes of it via duck typing:
`textAttr` is the value of the `.text` attribute when present
(`hasattr(block, "text")`); `isDict` says whether the block is a `dict`;
`dictText` is the value at key `"text"` when the block is a dict holding
that key; `typeAttr` is the `.type` attribute when present; `rawStr` is
`str(block)`. -/
structure ContentBlock where
  textAttr : Option String
  isDict : Bool
  dictText : Option String
  typeAttr : Option String
  rawStr : String
deriving DecidableEq

/-- The single-key output envelope `\x7b"replies": [reply]\x7d` of `run`. -/
structure RunOutput where
  replies : List ChatMessage
deriving DecidableEq

/-! ## String constants of the source -/

/-- Fixed instruction appended to the last user message in json mode
(source line 50). -/
def jsonUserSuffix : String :=
  "\n\nIMPORTANT: You must respond with valid JSON only. Do not include any text outside of the JSON structure."

/-- Fixed instruction appended to a captured system message in json mode
(source line 58). -/
def jsonSystemSuffix : String :=
  "\n\nYou must always respond with valid JSON format only."

/-- Fixed synthesized system directive used in json mode when no system
message was captured (source line 72). -/
def jsonDefaultSystem : String :=
  "You must always respond with valid JSON format only. Do not include any explanatory text outside the JSON structure."

/-- Message of the `ValueError` raised by `__init__` on a missing key
(source line 27, quotes elided). -/
def apiKeyErrorMsg : String :=
  "Anthropic API key is required. Set ANTHROPIC_API_KEY environment variable or pass api_key parameter."

/-- Message standing for the `AttributeError` raised when `block.text` is
accessed on a block that has no `text` attribute (source line 87). -/
def attrErrText : String :=
  "AttributeError: text"

/-! ## Construction (`__init__`, source lines 17-31) -/

/-- Python truthiness of an optional string: `None` and the empty string
are falsy, every other string is truthy. -/
def optTruthy : Option String → Bool
  | none => false
  | some s => s ≠ ""

/-- Embedding of `api_key = api_key or os.getenv("ANTHROPIC_API_KEY")`:
the explicit parameter when truthy, else the environment value
(which is `none` when the variable is unset). -/
def resolveApiKey (api_key env : Option String) : Option String :=
  if optTruthy api_key then api_key else env

/-- Embedding of `__init__`: resolve the key from the explicit parameter
or the environment, raise `ValueError` (`Except.error`) if the result is
falsy (`if not api_key`), otherwise store the configuration. The network
client is only constructed, never used, so construction performs no call. -/
def initGenerator (api_key env : Option String) (model : String) (json_mode : Bool) :
    Except String Config :=
  let key := resolveApiKey api_key env
  if optTruthy key then Except.ok ⟨key.getD "", model, json_mode⟩
  else Except.error apiKeyErrorMsg

/-! ## Message translation (`run`, source lines 42-58) -/

/-- Embedding of `(system_message or "")` on a string value: the identity
except that it maps the empty string to the empty string (it differs from
the identity only on Python `None`, which the string model excludes). -/
def pyOrEmpty (s : String) : String :=
  if s = "" then "" else s

/-- Text captured from a system message (source lines 56-58): the raw text,
with the fixed JSON instruction appended when json mode is on. -/
def sysCapture (json_mode : Bool) (t : String) : String :=
  if json_mode then pyOrEmpty t ++ jsonSystemSuffix else t

/-- One iteration of the translation loop (source lines 45-58). The state
is the pair (anthropic_messages, system_message). `messages` is the whole
conversation, captured so the user branch can test `msg == messages[-1]`
(value equality with the last message, as Python `==` on a dataclass is). -/
def translStep (json_mode : Bool) (messages : List ChatMessage)
    (st : List AnthropicMessage × Option String) (msg : ChatMessage) :
    List AnthropicMessage × Option String :=
  match msg.role with
  | Role.user =>
      let content :=
        if json_mode ∧ messages.getLast? = some msg then msg.text ++ jsonUserSuffix
        else msg.text
      (st.1 ++ [⟨"user", content⟩], st.2)
  | Role.assistant => (st.1 ++ [⟨"assistant", msg.text⟩], st.2)
  | Role.system => (st.1, some (sysCapture json_mode msg.text))
  | Role.other _ => st

/-- The whole translation loop: fold `translStep` over the conversation
starting from the empty list and no captured system message. -/
def translate (json_mode : Bool) (messages : List ChatMessage) :
    List AnthropicMessage × Option String :=
  messages.foldl (translStep json_mode messages) ([], none)

/-- The `"system"` key of `api_params` (source lines 67-72): the captured
system text if truthy (`if system_message:`), else in json mode the fixed
default directive, else absent. -/
def finalSystem (json_mode : Bool) (sys : Option String) : Option String :=
  if optTruthy sys then sys
  else if json_mode then some jsonDefaultSystem else none

/-- The full `api_params` dict (source lines 60-72): fixed model, fixed
`max_tokens = 1024`, the translated messages, and the optional system
directive. -/
def buildParams (cfg : Config) (messages : List ChatMessage) : ApiParams :=
  let st := translate cfg.json_mode messages
  ⟨cfg.model, 1024, st.1, finalSystem cfg.json_mode st.2⟩

/-! ## Content extraction (`run`, source lines 77-89) -/

/-- Extraction of one content block (source lines 82-89), with the branch
order of the source: the `.text` attribute if present; else the dict entry
at key `"text"` if the block is a dict holding it; else, if the block has a
`.type` attribute equal to `"text"`, the source evaluates `block.text`,
which necessarily raises `AttributeError` because the first branch already
established that no `text` attribute exists; else `str(block)`. -/
def extractBlock (b : ContentBlock) : Except String String :=
  match b.textAttr with
  | some t => Except.ok t
  | none =>
    match b.isDict, b.dictText with
    | true, some t => Except.ok t
    | _, _ =>
      match b.typeAttr with
      | some ty => if ty = "text" then Except.error attrErrText else Except.ok b.rawStr
      | none => Except.ok b.rawStr

/-- The extraction loop (source lines 78-89): concatenate the fragments in
block order, propagating an exception as `Except.error`. An empty block
list skips the loop and yields the empty string. -/
def extractContent (blocks : List ContentBlock) : Except String String :=
  blocks.foldlM
    (fun acc b =>
      match extractBlock b with
      | Except.ok t => Except.ok (acc ++ t)
      | Except.error e => Except.error e)
    ""

/-! ## JSON coercion (`run`, source lines 92-111) -/

/-- Python whitespace stripped by `str.strip()` (ASCII part). -/
def isPyWhitespace (c : Char) : Bool :=
  c = ' ' || c = '\t' || c = '\n' || c = '\r' || c = '\x0b' || c = '\x0c'

/-- Embedding of `str.strip()`: drop whitespace from both ends. -/
def pyStrip (s : String) : String :=
  String.mk (((s.toList.dropWhile isPyWhitespace).reverse.dropWhile isPyWhitespace).reverse)

/-- Embedding of `str.find(c)`: index of the first occurrence, `none`
standing for Python result `-1`. -/
def strFind (s : String) (c : Char) : Option Nat :=
  s.toList.findIdx? (fun a => a == c)

/-- Embedding of `str.rfind(c)`: index of the last occurrence, `none`
standing for Python result `-1`. -/
def strRFind (s : String) (c : Char) : Option Nat :=
  match s.toList.reverse.findIdx? (fun a => a == c) with
  | none => none
  | some i => some (s.toList.length - 1 - i)

/-- Embedding of the Python slice `s[a:b]` (for the in-range indices the
source produces). -/
def strSlice (s : String) (a b : Nat) : String :=
  String.mk ((s.toList.drop a).take (b - a))

/-- Body of the JSON coercion (source lines 96-111) on the already
stripped text `t`. `jsonOk` is the oracle for "`json.loads` succeeds":
the source delegates JSON validity to the external `json` library, so the
embedding takes that test as a parameter. If `t` parses, keep it; else
find the first `\x7b` and last `\x7d`; if both exist with the `\x7d`
strictly later, and the inclusive slice parses, replace the text with the
slice; in every other case keep `t` unchanged. -/
def coerceBody (jsonOk : String → Bool) (t : String) : String :=
  if jsonOk t then t
  else
    match strFind t '\x7b', strRFind t '\x7d' with
    | some si, some ei =>
        if si < ei then
          if jsonOk (strSlice t si (ei + 1)) then strSlice t si (ei + 1) else t
        else t
    | _, _ => t

/-- The full coercion applied in json mode (source lines 92-111):
strip surrounding whitespace (`reply_content = reply_content.strip()`),
then apply the parse-or-repair body. -/
def coerceJson (jsonOk : String → Bool) (s : String) : String :=
  coerceBody jsonOk (pyStrip s)

/-! ## Reply construction (`run`, source lines 113-116) -/

/-- Embedding of `ChatMessage.from_assistant(text)`: assistant role, the
given text, empty metadata. -/
def from_assistant (t : String) : ChatMessage :=
  ⟨Role.assistant, t, []⟩

/-- The whole `run` method, with the remote call abstracted: the response
content blocks are an input, and the `json.loads` oracle is a parameter.
Failure of the extraction loop propagates as `Except.error`; otherwise the
final text is wrapped in a one-element reply list inside the single-key
envelope, returned together with the request parameters that were built. -/
def runModel (cfg : Config) (jsonOk : String → Bool) (messages : List ChatMessage)
    (blocks : List ContentBlock) : Except String (ApiParams × RunOutput) :=
  let params := buildParams cfg messages
  match extractContent blocks with
  | Except.error e => Except.error e
  | Except.ok raw =>
      let content := if cfg.json_mode then coerceJson jsonOk raw else raw
      Except.ok (params, ⟨[from_assistant content]⟩)

/-! ## Specification-side definitions

These definitions restate, claim-side, what single loop iterations do, so
that the theorems can compare the folded loop against them. -/

/-- Per-message translation outcome, read off one arm of the loop body:
a user message becomes a user entry (with the JSON suffix when json mode
is on and the message is value-equal to the conversation's last message),
an assistant message becomes an assistant entry, and system or
unrecognized messages contribute no entry. -/
def translOne (json_mode : Bool) (lastMsg : Option ChatMessage) (msg : ChatMessage) :
    Option AnthropicMessage :=
  match msg.role with
  | Role.user =>
      some ⟨"user",
        if json_mode ∧ lastMsg = some msg then msg.text ++ jsonUserSuffix else msg.text⟩
  | Role.assistant => some ⟨"assistant", msg.text⟩
  | Role.system => none
  | Role.other _ => none

/-- A block that makes the extraction loop raise: no direct `text`
attribute, not a dict holding key `"text"`, but a `type` attribute equal
to `"text"` (so the source reaches `block.text` on line 87 and raises
`AttributeError`). -/
def isBadTypeBlock (b : ContentBlock) : Bool :=
  match b.textAttr, b.isDict, b.dictText, b.typeAttr with
  | none, true, some _, _ => false
  | none, _, _, some ty => ty == "text"
  | _, _, _, _ => false

/-- The per-block text fragment of the extraction priority chain for
blocks that do not raise: direct `text` attribute; else dict entry at key
`"text"`; else the stringified raw representation. -/
def blockFragment (b : ContentBlock) : String :=
  match b.textAttr with
  | some t => t
  | none =>
    match b.isDict, b.dictText with
    | true, some t => t
    | _, _ => b.rawStr

/-- Text of the last system message of a conversation, when one exists. -/
def lastSystemText : List ChatMessage → Option String
  | [] => none
  | m :: rest =>
    match lastSystemText rest with
    | some t => some t
    | none => if m.role = Role.system then some m.text else none

/-! ## Helper lemmas -/

theorem str_append_empty (s : String) : s ++ "" = s := by
  cases s with
  | mk d => exact congrArg String.mk (List.append_nil d)

theorem str_empty_append (s : String) : "" ++ s = s := by
  cases s with
  | mk d => rfl

theorem str_append_assoc (a b c : String) : a ++ b ++ c = a ++ (b ++ c) := by
  cases a with
  | mk x =>
    cases b with
    | mk y =>
      cases c with
      | mk z => exact congrArg String.mk (List.append_assoc x y z)

theorem pyOrEmpty_eq (s : String) : pyOrEmpty s = s := by
  unfold pyOrEmpty
  split <;> simp_all

/-- Unfolding equation of `lastSystemText` on a nonempty conversation. -/
theorem lastSystemText_cons (m : ChatMessage) (rest : List ChatMessage) :
    lastSystemText (m :: rest)
      = (match lastSystemText rest with
         | some t => some t
         | none => if m.role = Role.system then some m.text else none) := rfl

theorem optTruthy_some (x : String) : optTruthy (some x) = decide (x ≠ "") := rfl

theorem optTruthy_none : optTruthy none = false := rfl

theorem buildParams_messages (cfg : Config) (messages : List ChatMessage) :
    (buildParams cfg messages).messages = (translate cfg.json_mode messages).1 := rfl

theorem buildParams_system (cfg : Config) (messages : List ChatMessage) :
    (buildParams cfg messages).system
      = finalSystem cfg.json_mode (translate cfg.json_mode messages).2 := rfl

/-- Characterization of the translated-message component of the loop state:
folding from any initial state appends exactly the `filterMap` of the
per-message translation. -/
theorem foldl_translStep_fst (json_mode : Bool) (msgs0 : List ChatMessage) :
    ∀ (l : List ChatMessage) (st : List AnthropicMessage × Option String),
      (l.foldl (translStep json_mode msgs0) st).1
        = st.1 ++ l.filterMap (translOne json_mode msgs0.getLast?) := by
  intro l
  induction l with
  | nil => intro st; simp
  | cons m rest ih =>
    intro st
    rw [List.foldl_cons, ih, List.filterMap_cons]
    cases hr : m.role <;>
      simp [translStep, translOne, hr, List.append_assoc]

/-- Characterization of the captured-system component of the loop state:
the last system message wins, transformed by `sysCapture`; if there is no
system message the component is left untouched. -/
theorem foldl_translStep_snd (json_mode : Bool) (msgs0 : List ChatMessage) :
    ∀ (l : List ChatMessage) (st : List AnthropicMessage × Option String),
      (l.foldl (translStep json_mode msgs0) st).2
        = (match lastSystemText l with
           | some t => some (sysCapture json_mode t)
           | none => st.2) := by
  intro l
  induction l with
  | nil => intro st; simp [lastSystemText]
  | cons m rest ih =>
    intro st
    rw [List.foldl_cons, ih, lastSystemText_cons]
    cases hrest : lastSystemText rest with
    | some t => simp
    | none =>
      cases hr : m.role <;> simp [translStep, hr]

/-- Lengths: each loop iteration appends one entry for a user or assistant
message and none otherwise. -/
theorem foldl_translStep_length (json_mode : Bool) (msgs0 : List ChatMessage) :
    ∀ (l : List ChatMessage) (st : List AnthropicMessage × Option String),
      (l.foldl (translStep json_mode msgs0) st).1.length
        = st.1.length
          + l.countP (fun m => decide (m.role = Role.user) || decide (m.role = Role.assistant)) := by
  intro l
  induction l with
  | nil => intro st; simp
  | cons m rest ih =>
    intro st
    rw [List.foldl_cons, ih, List.countP_cons]
    cases hr : m.role <;> simp [translStep, hr] <;> omega

/-- A conversation without system messages has no last system text. -/
theorem lastSystemText_eq_none (msgs : List ChatMessage)
    (h : ∀ m ∈ msgs, m.role ≠ Role.system) : lastSystemText msgs = none := by
  induction msgs with
  | nil => rfl
  | cons m rest ih =>
    unfold lastSystemText
    rw [ih (fun x hx => h x (List.mem_cons_of_mem m hx))]
    simp [h m (List.mem_cons_self m rest)]

/-- When every system message of the conversation has empty text, the last
system text, if any, is empty. -/
theorem lastSystemText_empty (msgs : List ChatMessage)
    (h : ∀ m ∈ msgs, m.role = Role.system → m.text = "") :
    ∀ s, lastSystemText msgs = some s → s = "" := by
  induction msgs with
  | nil => intro s hs; exact absurd hs (by simp [lastSystemText])
  | cons m rest ih =>
    intro s hs
    rw [lastSystemText_cons] at hs
    cases hrest : lastSystemText rest with
    | some t =>
      rw [hrest] at hs
      simp only [Option.some_inj] at hs
      exact ih (fun x hx hsys => h x (List.mem_cons_of_mem m hx) hsys) s
        (by rw [hrest, hs])
    | none =>
      rw [hrest] at hs
      by_cases hr : m.role = Role.system
      · rw [if_pos hr, Option.some_inj] at hs
        rw [← hs]
        exact h m (List.mem_cons_self m rest) hr
      · rw [if_neg hr] at hs
        exact absurd hs (by simp)

/-- A non-raising block extracts exactly its specification fragment. -/
theorem extractBlock_ok (b : ContentBlock) (h : isBadTypeBlock b = false) :
    extractBlock b = Except.ok (blockFragment b) := by
  rcases b with ⟨ta, d, dt, ty, raw⟩
  cases ta with
  | some t => rfl
  | none =>
    cases d <;> cases dt <;> cases ty <;>
      simp_all [isBadTypeBlock, extractBlock, blockFragment]

/-- Folding string concatenation distributes over the initial value. -/
theorem str_foldl_append (l : List String) :
    ∀ a : String, l.foldl (fun x y => x ++ y) a
      = a ++ l.foldl (fun x y => x ++ y) "" := by
  induction l with
  | nil => intro a; rw [List.foldl_nil, List.foldl_nil, str_append_empty]
  | cons b rest ih =>
    intro a
    rw [List.foldl_cons, List.foldl_cons, ih (a ++ b), ih ("" ++ b),
      str_empty_append, str_append_assoc]

theorem str_join_cons (a : String) (l : List String) :
    String.join (a :: l) = a ++ String.join l := by
  show (a :: l).foldl (fun x y => x ++ y) "" = _
  rw [List.foldl_cons, str_foldl_append, str_empty_append]
  rfl

/-- Characterization of the extraction loop on lists without raising
blocks, from an arbitrary accumulator. -/
theorem foldlM_extract (blocks : List ContentBlock)
    (h : ∀ b ∈ blocks, isBadTypeBlock b = false) :
    ∀ acc : String,
      (blocks.foldlM
        (fun acc b =>
          match extractBlock b with
          | Except.ok t => Except.ok (acc ++ t)
          | Except.error e => (Except.error e : Except String String))
        acc)
        = Except.ok (acc ++ String.join (blocks.map blockFragment)) := by
  induction blocks with
  | nil =>
    intro acc
    show Except.ok acc = Except.ok (acc ++ String.join [])
    have h0 : String.join ([] : List String) = "" := rfl
    rw [h0, str_append_empty]
  | cons b rest ih =>
    intro acc
    rw [List.foldlM_cons, extractBlock_ok b (h b (List.mem_cons_self b rest))]
    show rest.foldlM _ (acc ++ blockFragment b) = _
    rw [ih (fun x hx => h x (List.mem_cons_of_mem b hx)) (acc ++ blockFragment b),
      List.map_cons, str_join_cons, str_append_assoc]

/-! ## Claims -/

/-- C1 counterexample. The claim says that with json_mode enabled only the
last message receives the JSON instruction and every other user message is
emitted unchanged. The source tests `msg == messages[-1]`, which on a
Python dataclass is value equality, so in the conversation consisting of
two identical user messages "hi" the first (non-last) user message is also
emitted with the instruction appended — its emitted content differs from
its original text, refuting the claim. -/
theorem C1_counterexample :
    (translate true [⟨Role.user, "hi", []⟩, ⟨Role.user, "hi", []⟩]).1
      = [⟨"user", "hi" ++ jsonUserSuffix⟩, ⟨"user", "hi" ++ jsonUserSuffix⟩] ∧
    "hi" ++ jsonUserSuffix ≠ "hi" := by
  constructor
  · rfl
  · decide

/-- C1 (amended). For every conversation with json_mode enabled, the
translation emits, in order, one entry per user or assistant message and
none for other roles; the JSON instruction is appended to the content of
exactly those user messages that are value-equal to the conversation's
last message (in particular the last message itself when it is a user
message), and every other user message is emitted with its original text
unchanged, as described pointwise by `translOne`. -/
theorem C1_amended_thm (messages : List ChatMessage) :
    (translate true messages).1
      = messages.filterMap (translOne true messages.getLast?) := by
  rw [translate, foldl_translStep_fst]
  rfl

/-- C2. When json_mode is enabled the coercion first strips surrounding
whitespace from the concatenated text; if the stripped text parses as a
complete JSON document (oracle `jsonOk`, standing for `json.loads`
success) the result is the stripped text as-is; otherwise, if the text has
a first opening brace at `si` and a last closing brace at `ei` with
`si < ei` and the inclusive slice between them parses, the result is
exactly that slice; in every other case the result is the stripped text
unmodified. -/
theorem C2_thm (jsonOk : String → Bool) (s : String) :
    (jsonOk (pyStrip s) = true → coerceJson jsonOk s = pyStrip s) ∧
    (jsonOk (pyStrip s) = false →
      ∀ si ei, strFind (pyStrip s) '\x7b' = some si →
        strRFind (pyStrip s) '\x7d' = some ei →
        (si < ei →
          (jsonOk (strSlice (pyStrip s) si (ei + 1)) = true →
            coerceJson jsonOk s = strSlice (pyStrip s) si (ei + 1)) ∧
          (jsonOk (strSlice (pyStrip s) si (ei + 1)) = false →
            coerceJson jsonOk s = pyStrip s)) ∧
        (¬ si < ei → coerceJson jsonOk s = pyStrip s)) ∧
    (jsonOk (pyStrip s) = false →
      (strFind (pyStrip s) '\x7b' = none ∨ strRFind (pyStrip s) '\x7d' = none) →
      coerceJson jsonOk s = pyStrip s) := by
  refine ⟨?_, ?_, ?_⟩
  · intro h
    rw [coerceJson, coerceBody, if_pos h]
  · intro h si ei hf hr
    refine ⟨?_, ?_⟩
    · intro hlt
      refine ⟨?_, ?_⟩ <;> intro hok <;>
        rw [coerceJson, coerceBody, if_neg (by rw [h]; exact Bool.false_ne_true),
          hf, hr] <;> simp [hlt, hok]
    · intro hnlt
      rw [coerceJson, coerceBody, if_neg (by rw [h]; exact Bool.false_ne_true),
        hf, hr]
      simp [hnlt]
  · intro h hbr
    rw [coerceJson, coerceBody, if_neg (by rw [h]; exact Bool.false_ne_true)]
    rcases hbr with hf | hr
    · rw [hf]
    · rw [hr]
      cases strFind (pyStrip s) '\x7b' <;> rfl

/-- C2 witness: with an oracle accepting exactly the two-character text
consisting of an opening and a closing brace, the input with surrounding
whitespace and prose around the braces is repaired to exactly the brace
slice. -/
theorem C2_witness :
    coerceJson (fun u => u == "\x7b\x7d") " ab\x7b\x7dc " = "\x7b\x7d" := by
  have h := (C2_thm (fun u => u == "\x7b\x7d") " ab\x7b\x7dc ").2.1
    (by decide) 2 3 (by decide) (by decide)
  exact ((h.1 (by decide)).1 (by decide)).trans (by decide)

/-- C3. The claim says extraction never raises for blocks of any shape.
The source line 87 (`reply_content += block.text` under the guard
`hasattr(block, "type") and block.type == "text"`) is only reachable when
`hasattr(block, "text")` is false, so whenever that branch is taken the
attribute access raises `AttributeError`: on a block carrying a `type`
attribute equal to `"text"` but no `text` attribute, extraction raises
instead of producing a string. -/
theorem C3_failing :
    extractContent [⟨none, false, none, some "text", "SomeRawBlock"⟩]
      = Except.error attrErrText := rfl

/-- C4 counterexample. The claim says the extracted text always equals the
ordered concatenation of per-block fragments, with a discriminant-tagged
block contributing its text payload. On the list consisting of a plain
text block "A" followed by a block whose `type` attribute is `"text"` but
which has no `text` attribute and is not a dict, the loop raises
`AttributeError` at the second block, so no extracted string exists at
all — in particular the result is not the successful concatenation the
claim demands. -/
theorem C4_counterexample :
    extractContent
      [⟨some "A", false, none, none, "rawA"⟩,
       ⟨none, false, none, some "text", "rawBad"⟩]
      = Except.error attrErrText ∧
    (Except.error attrErrText : Except String String) ≠ Except.ok ("A" ++ "rawBad") := by
  constructor
  · rfl
  · simp

/-- C4 (amended). For every ordered list of response content blocks in
which no block simultaneously lacks a direct `text` attribute, is not a
mapping holding a `"text"` entry, and carries a discriminant `type`
attribute equal to `"text"` (such a block instead makes extraction raise
`AttributeError`), the extracted text equals the concatenation, in block
order and with no separator, of per-block fragments chosen by priority:
the direct `text` attribute if present; else the mapping's `"text"` entry
if present; else the stringified raw representation of the block. -/
theorem C4_amended_thm (blocks : List ContentBlock)
    (h : ∀ b ∈ blocks, isBadTypeBlock b = false) :
    extractContent blocks = Except.ok (String.join (blocks.map blockFragment)) := by
  rw [extractContent, foldlM_extract blocks h "", str_empty_append]

/-- C4 witness: a direct-text block, a dict block, and an opaque
`tool_use` block extract to the concatenation of attribute text, dict
entry and raw representation. -/
theorem C4_witness :
    extractContent
      [⟨some "A", false, none, some "text", "r1"⟩,
       ⟨none, true, some "B", none, "r2"⟩,
       ⟨none, false, none, some "tool_use", "r3"⟩]
      = Except.ok (String.join ["A", "B", "r3"]) := by
  exact C4_amended_thm
    [⟨some "A", false, none, some "text", "r1"⟩,
     ⟨none, true, some "B", none, "r2"⟩,
     ⟨none, false, none, some "tool_use", "r3"⟩]
    (by decide)

/-- C5 counterexample. The claim says that whenever the conversation holds
more than one system message, the request's system directive equals the
last system message's text. In the conversation with system messages "A"
then "" and json_mode disabled, the captured text is the empty string,
which fails the source's truthiness test `if system_message:`, so the
request carries no system directive at all rather than a directive equal
to "". -/
theorem C5_counterexample :
    (([⟨Role.system, "A", []⟩, ⟨Role.system, "", []⟩] : List ChatMessage).countP
        (fun m => decide (m.role = Role.system))) = 2 ∧
    (buildParams ⟨"k", "claude-3-5-sonnet-20241022", false⟩
        [⟨Role.system, "A", []⟩, ⟨Role.system, "", []⟩]).system ≠ some "" ∧
    (buildParams ⟨"k", "claude-3-5-sonnet-20241022", false⟩
        [⟨Role.system, "A", []⟩, ⟨Role.system, "", []⟩]).system = none := by
  refine ⟨by decide, by decide, by decide⟩

/-- C5 (amended). For every conversation, no system message is emitted
inline among the translated messages (every emitted entry has role
`"user"` or `"assistant"`); when the conversation contains at least one
system message, last-system-wins: with json_mode enabled the request's
system directive equals the last system message's text with the fixed JSON
suffix appended exactly once, and with json_mode disabled it equals the
last system message's text when that text is non-empty and is absent when
it is empty (the captured directive is tested for truthiness). -/
theorem C5_amended_thm (cfg : Config) (messages : List ChatMessage) (s : String)
    (h : lastSystemText messages = some s) :
    (∀ am ∈ (buildParams cfg messages).messages, am.role ≠ "system") ∧
    (buildParams cfg messages).system
      = (if cfg.json_mode then some (s ++ jsonSystemSuffix)
         else if s = "" then none else some s) := by
  constructor
  · intro am ham
    rw [buildParams_messages] at ham
    simp only [translate] at ham
    rw [foldl_translStep_fst] at ham
    simp only [List.nil_append, List.mem_filterMap] at ham
    obtain ⟨m, _, hm⟩ := ham
    rw [translOne.eq_def] at hm
    cases hmr : m.role with
    | user =>
      rw [hmr] at hm
      simp only [Option.some_inj] at hm
      rw [← hm]
      show ("user" : String) ≠ "system"
      decide
    | assistant =>
      rw [hmr] at hm
      simp only [Option.some_inj] at hm
      rw [← hm]
      show ("assistant" : String) ≠ "system"
      decide
    | system =>
      rw [hmr] at hm
      exact Option.noConfusion hm
    | other tag =>
      rw [hmr] at hm
      exact Option.noConfusion hm
  · rw [buildParams_system]
    simp only [translate]
    rw [foldl_translStep_snd, h]
    cases hj : cfg.json_mode with
    | true =>
      show finalSystem true (some (sysCapture true s)) = some (s ++ jsonSystemSuffix)
      have hne : s ++ jsonSystemSuffix ≠ "" := by
        intro hcontra
        have hlen := congrArg String.length hcontra
        rw [String.length_append] at hlen
        have h54 : jsonSystemSuffix.length ≠ 0 := by decide
        have h0 : ("" : String).length = 0 := rfl
        rw [h0] at hlen
        omega
      rw [sysCapture, if_pos rfl, pyOrEmpty_eq, finalSystem, optTruthy_some,
        if_pos (decide_eq_true hne)]
    | false =>
      show finalSystem false (some (sysCapture false s)) = (if s = "" then none else some s)
      rw [sysCapture, if_neg (by simp), finalSystem, optTruthy_some]
      by_cases hs : s = ""
      · rw [if_neg (by simp [hs]), if_pos hs]
        simp
      · rw [if_pos (decide_eq_true hs), if_neg hs]

/-- C5 witness: with system messages "A" then "B" and json mode on, the
request's system directive is "B" followed by the fixed JSON suffix. -/
theorem C5_witness :
    (buildParams ⟨"k", "claude-3-5-sonnet-20241022", true⟩
        [⟨Role.system, "A", []⟩, ⟨Role.system, "B", []⟩]).system
      = some ("B" ++ jsonSystemSuffix) := by
  have h := C5_amended_thm ⟨"k", "claude-3-5-sonnet-20241022", true⟩
    [⟨Role.system, "A", []⟩, ⟨Role.system, "B", []⟩] "B" (by decide)
  exact h.2

/-- C6. For every conversation containing no system message: with
json_mode enabled the request carries the fixed default JSON-only system
directive; with json_mode disabled it carries no system directive at
all. -/
theorem C6_thm (cfg : Config) (messages : List ChatMessage)
    (h : ∀ m ∈ messages, m.role ≠ Role.system) :
    (buildParams cfg messages).system
      = (if cfg.json_mode then some jsonDefaultSystem else none) := by
  rw [buildParams_system]
  simp only [translate]
  rw [foldl_translStep_snd, lastSystemText_eq_none messages h]
  rfl

/-- C6 witness: a single user question with json mode off yields a request
without a system directive. -/
theorem C6_witness :
    (buildParams ⟨"k", "claude-3-5-sonnet-20241022", false⟩
        [⟨Role.user, "What is X?", []⟩]).system = none := by
  exact C6_thm ⟨"k", "claude-3-5-sonnet-20241022", false⟩
    [⟨Role.user, "What is X?", []⟩] (by decide)

/-- Unfolding equation of `runModel`. -/
theorem runModel_eq (cfg : Config) (jsonOk : String → Bool) (messages : List ChatMessage)
    (blocks : List ContentBlock) :
    runModel cfg jsonOk messages blocks
      = (match extractContent blocks with
         | Except.error e => Except.error e
         | Except.ok raw =>
             Except.ok (buildParams cfg messages,
               ⟨[from_assistant (if cfg.json_mode then coerceJson jsonOk raw else raw)]⟩)) := rfl

/-- C7. Messages whose role is neither user, assistant nor system — and
system messages, which are captured separately rather than emitted —
contribute no entry to the translated request: its length equals the
number of user and assistant messages, and the loop is total, so dropping
is silent. -/
theorem C7_thm (json_mode : Bool) (messages : List ChatMessage) :
    (translate json_mode messages).1.length
      = messages.countP
          (fun m => decide (m.role = Role.user) || decide (m.role = Role.assistant)) := by
  rw [translate, foldl_translStep_length]
  simp

/-- C8. Construction with no resolvable API key — a falsy (absent or
empty) explicit parameter together with a falsy environment value — raises
(`Except.error`) immediately, with no client use modelled at all; when
either source provides a truthy key, construction succeeds. -/
theorem C8_thm (api_key env : Option String) (model : String) (json_mode : Bool) :
    (optTruthy api_key = false → optTruthy env = false →
      initGenerator api_key env model json_mode = Except.error apiKeyErrorMsg) ∧
    (optTruthy api_key = true ∨ optTruthy env = true →
      ∃ cfg, initGenerator api_key env model json_mode = Except.ok cfg) := by
  constructor
  · intro ha he
    have hkey : resolveApiKey api_key env = env := by
      rw [resolveApiKey, if_neg (by rw [ha]; exact Bool.false_ne_true)]
    show (if optTruthy (resolveApiKey api_key env) then
            (Except.ok ⟨(resolveApiKey api_key env).getD "", model, json_mode⟩ :
              Except String Config)
          else Except.error apiKeyErrorMsg) = Except.error apiKeyErrorMsg
    rw [hkey, if_neg (by rw [he]; exact Bool.false_ne_true)]
  · intro hor
    by_cases ha : optTruthy api_key = true
    · refine ⟨⟨api_key.getD "", model, json_mode⟩, ?_⟩
      show (if optTruthy (resolveApiKey api_key env) then
              (Except.ok ⟨(resolveApiKey api_key env).getD "", model, json_mode⟩ :
                Except String Config)
            else Except.error apiKeyErrorMsg) = _
      rw [resolveApiKey, if_pos ha, if_pos ha]
    · have he : optTruthy env = true := by
        rcases hor with h1 | h2
        · exact absurd h1 ha
        · exact h2
      refine ⟨⟨env.getD "", model, json_mode⟩, ?_⟩
      show (if optTruthy (resolveApiKey api_key env) then
              (Except.ok ⟨(resolveApiKey api_key env).getD "", model, json_mode⟩ :
                Except String Config)
            else Except.error apiKeyErrorMsg) = _
      rw [resolveApiKey, if_neg ha, if_pos he]

/-- C8 witness: an empty explicit key with no environment value errors,
and a non-empty explicit key succeeds. -/
theorem C8_witness :
    initGenerator (some "") none "claude-3-5-sonnet-20241022" false
      = Except.error apiKeyErrorMsg ∧
    ∃ cfg, initGenerator (some "sk-test") none "claude-3-5-sonnet-20241022" false
      = Except.ok cfg := by
  constructor
  · exact (C8_thm (some "") none "claude-3-5-sonnet-20241022" false).1
      (by decide) (by decide)
  · exact (C8_thm (some "sk-test") none "claude-3-5-sonnet-20241022" false).2
      (Or.inl (by decide))

/-- C9. Every invocation of `run` that returns normally yields the
single-key envelope whose `replies` value is the one-element list holding
the assistant-tagged reply whose text is the extracted and (in json mode)
coerced content. -/
theorem C9_thm (cfg : Config) (jsonOk : String → Bool) (messages : List ChatMessage)
    (blocks : List ContentBlock) (params : ApiParams) (out : RunOutput)
    (h : runModel cfg jsonOk messages blocks = Except.ok (params, out)) :
    ∃ raw, extractContent blocks = Except.ok raw ∧
      out.replies
        = [from_assistant (if cfg.json_mode then coerceJson jsonOk raw else raw)] := by
  rw [runModel_eq] at h
  cases hex : extractContent blocks with
  | error e =>
    rw [hex] at h
    exact Except.noConfusion h
  | ok raw =>
    rw [hex] at h
    simp only [Except.ok.injEq, Prod.mk.injEq] at h
    obtain ⟨hp, ho⟩ := h
    refine ⟨raw, rfl, ?_⟩
    rw [← ho]

/-- C9 witness: a single text block "ans" with json mode off produces the
one-element assistant reply list with text "ans". -/
theorem C9_witness :
    ∃ raw, extractContent [⟨some "ans", false, none, some "text", "r"⟩] = Except.ok raw ∧
      (RunOutput.mk [from_assistant "ans"]).replies
        = [from_assistant
            (if (Config.mk "k" "claude-3-5-sonnet-20241022" false).json_mode
             then coerceJson (fun _ => false) raw else raw)] := by
  exact C9_thm ⟨"k", "claude-3-5-sonnet-20241022", false⟩ (fun _ => false)
    [⟨Role.user, "q", []⟩] [⟨some "ans", false, none, some "text", "r"⟩]
    (buildParams ⟨"k", "claude-3-5-sonnet-20241022", false⟩ [⟨Role.user, "q", []⟩])
    ⟨[from_assistant "ans"]⟩ rfl

/-- C10. For every conversation whose system messages all have empty text,
with json_mode disabled the request carries no system directive: the
captured directive is tested for truthiness (`if system_message:`), so an
empty captured system text behaves exactly like an absent one. -/
theorem C10_thm (api_key model : String) (messages : List ChatMessage)
    (h : ∀ m ∈ messages, m.role = Role.system → m.text = "") :
    (buildParams ⟨api_key, model, false⟩ messages).system = none := by
  rw [buildParams_system]
  simp only [translate]
  rw [foldl_translStep_snd]
  cases hlast : lastSystemText messages with
  | none => rfl
  | some s =>
    have hs : s = "" := lastSystemText_empty messages h s hlast
    show finalSystem false (some (sysCapture false s)) = none
    rw [sysCapture, if_neg (by simp), finalSystem, optTruthy_some,
      if_neg (by simp [hs])]
    simp

/-- C10 witness: an empty system message followed by a user question,
json mode off, yields no system directive. -/
theorem C10_witness :
    (buildParams ⟨"k", "claude-3-5-sonnet-20241022", false⟩
        [⟨Role.system, "", []⟩, ⟨Role.user, "q", []⟩]).system = none := by
  exact C10_thm "k" "claude-3-5-sonnet-20241022"
    [⟨Role.system, "", []⟩, ⟨Role.user, "q", []⟩] (by decide)

end AnthropicChatGeneratorModel
